import Mathlib

/-!
Verification of the RBAC authorization core of the SMS repository
(`SMS/rbac/models.py`, `SMS/rbac/services.py`, `SMS/rbac/permissions.py`).

The relational state is embedded as explicit lists of rows; time is an
integer passed explicitly (Django's `timezone.now()` value at the moment of
the call).  Foreign keys that the service follows with a join are embedded
either inline (a `UserRole` carries its `Role` row, mirroring the non-null
FK) or as an id looked up in the corresponding table with SQL join
semantics (`RolePermission.permission`).  Audit-log writes are modelled
together with an `auditFails` flag on the state: when it is set, every
attempt to insert an audit row raises, which the service swallows
(`try/except Exception: pass`), leaving the log unchanged.
-/

namespace SMSRBAC

/-- A row of `rbac.Role` (`models.py`): only the columns the service layer
reads are kept — `id`, `name`, `level_rank` (lower = higher authority) and
`is_active`. -/
structure Role where
  id : Nat
  name : String
  level_rank : Nat
  is_active : Bool
deriving DecidableEq

/-- A row of `rbac.Permission` (`models.py`): unique `id`, the permission
`code` string and the `is_active` soft-delete flag. -/
structure Permission where
  id : Nat
  code : String
  is_active : Bool
deriving DecidableEq

/-- A row of `rbac.RolePermission` (`models.py`): the many-to-many bridge,
carrying the two foreign-key ids. -/
structure RolePermission where
  roleId : Nat
  permId : Nat
deriving DecidableEq

/-- A row of `rbac.UserRole` (`models.py`).  The non-null `role` FK is
embedded inline; `branch` is the nullable branch FK (an id); `valid_from`
and `valid_until` are datetimes embedded as integers. -/
structure UserRole where
  id : Nat
  userId : Nat
  role : Role
  branch : Option Nat
  valid_from : Int
  valid_until : Option Int
  is_active : Bool
deriving DecidableEq

/-- The authenticated principal as the service sees it: Django's user with
`is_authenticated` and `is_superuser` flags and the `email` used in
denial messages. -/
structure User where
  id : Nat
  email : String
  is_authenticated : Bool
  is_superuser : Bool
deriving DecidableEq

/-- A row of `rbac.PermissionAuditLog` (`models.py`), restricted to the
columns the service writes. -/
structure AuditEntry where
  userId : Nat
  action : String
  permission_code : String
  granted : Bool
  reason : String
deriving DecidableEq

/-- The relational state the RBAC service reads and writes, plus the
`auditFails` fault flag: when true, every `PermissionAuditLog` insert
raises (and is swallowed by the service's `try/except`). -/
structure DB where
  permissions : List Permission
  rolePermissions : List RolePermission
  userRoles : List UserRole
  auditLog : List AuditEntry
  nextUserRoleId : Nat
  auditFails : Bool
deriving DecidableEq

/-- `UserRole.is_valid` (`models.py` lines 210-217): active, started, and
not yet expired (a null `valid_until` never expires). -/
def UserRole.is_valid (ur : UserRole) (now : Int) : Bool :=
  ur.is_active && decide (ur.valid_from ≤ now) &&
    (match ur.valid_until with
     | none => true
     | some u => decide (now ≤ u))

/-- `RBACService._log_permission_check` (`services.py` lines 265-276):
append one `check` audit row; any exception is caught and discarded, so a
failing write leaves the state unchanged. -/
def logPermissionCheck (db : DB) (u : User) (code : String) (granted : Bool)
    (reason : String) : DB :=
  if db.auditFails then db
  else { db with auditLog := db.auditLog ++ [⟨u.id, "check", code, granted, reason⟩] }

/-- `RBACService._log_action` (`services.py` lines 278-292): append one
grant/revoke audit row, likewise fail-silent. -/
def logAction (db : DB) (action : String) (userId : Nat) (role : Role)
    (performedBy : Option User) : DB :=
  if db.auditFails then db
  else
    { db with auditLog := db.auditLog ++
        [⟨userId, action, "role." ++ action, true,
          "Role " ++ role.name ++ " " ++ action ++ "ed by " ++
            (match performedBy with
             | some p => p.email
             | none => "system")⟩] }

/-- `RBACService._get_valid_user_roles` (`services.py` lines 242-259): the
user's `UserRole` rows with `is_active=True`, `valid_from <= now` and
(`valid_until IS NULL` or `valid_until >= now`); when a branch is given,
further restricted to that branch or to tenant-wide (null-branch) rows. -/
def getValidUserRoles (db : DB) (u : User) (branch : Option Nat) (now : Int) :
    List UserRole :=
  let base := db.userRoles.filter (fun ur =>
    ur.userId == u.id && ur.is_active && decide (ur.valid_from ≤ now) &&
      (match ur.valid_until with
       | none => true
       | some v => decide (v ≥ now)))
  match branch with
  | none => base
  | some b => base.filter (fun ur => ur.branch == some b || ur.branch == none)

/-- `RBACService.user_has_permission` (`services.py` lines 33-67).  Returns
the boolean decision together with the state after the audit write.  The
existence query (lines 60-64) joins `RolePermission` against the resolved
role ids and against the `Permission` table on `code` and `is_active`. -/
def userHasPermission (db : DB) (u : User) (code : String)
    (branch : Option Nat) (now : Int) : Bool × DB :=
  if !u.is_authenticated then
    (false, logPermissionCheck db u code false "User not authenticated")
  else if u.is_superuser then
    (true, logPermissionCheck db u code true "Superuser access")
  else
    let roles := getValidUserRoles db u branch now
    if roles.isEmpty then
      (false, logPermissionCheck db u code false "No valid roles found")
    else
      let has := db.rolePermissions.any (fun rp =>
        roles.any (fun ur => ur.role.id == rp.roleId) &&
          db.permissions.any (fun p =>
            p.id == rp.permId && p.code == code && p.is_active))
      (has, logPermissionCheck db u code has "")

/-- The authorization errors the service raises: `PermissionDenied`
(`django.core.exceptions`) with its message, and the database's
`IntegrityError` on a unique-constraint violation. -/
inductive RBACError where
  | permissionDenied (msg : String)
  | integrityError
deriving DecidableEq

deriving instance DecidableEq for Except

/-- `RBACService.require_permission` (`services.py` lines 87-97): run the
boolean check; raise `PermissionDenied` naming the user's email and the
permission code when it fails, otherwise return normally. -/
def requirePermission (db : DB) (u : User) (code : String)
    (branch : Option Nat) (now : Int) : Except RBACError DB :=
  let r := userHasPermission db u code branch now
  if r.fst then Except.ok r.snd
  else Except.error (RBACError.permissionDenied
    ("User " ++ u.email ++ " does not have permission: " ++ code))

/-- The smallest rank of `role.level_rank` over a list of `UserRole` rows:
the value `order_by('role__level_rank').first()` selects in
`_can_manage_role`. -/
def minRankOf : List UserRole → Option Nat
  | [] => none
  | ur :: rest =>
    match minRankOf rest with
    | none => some ur.role.level_rank
    | some m => some (min ur.role.level_rank m)

/-- `RBACService._can_manage_role` (`services.py` lines 225-240): superuser
always passes; otherwise the manager's highest-authority (lowest
`level_rank`) currently-valid role must outrank (be strictly below) the
target role's rank; a manager with no valid roles manages nothing. -/
def canManageRole (db : DB) (manager : User) (targetRole : Role) (now : Int) :
    Bool :=
  if manager.is_superuser then true
  else
    match minRankOf (getValidUserRoles db manager none now) with
    | none => false
    | some m => decide (m < targetRole.level_rank)

/-- The body of `RBACService.assign_role` after the hierarchy gate
(`services.py` lines 159-174), run inside `transaction.atomic`: deactivate
every active row for the exact `(user, role, branch)` key, then insert a
fresh active row.  The insert is subject to `UserRole`'s
`unique_together = ['user', 'role', 'branch']` (`models.py` line 198): SQL
unique indexes treat NULLs as distinct, so the insert raises
`IntegrityError` exactly when `branch` is non-null and some row (active or
not) already holds the same key, and the transaction rolls the update
back. -/
def assignRoleTx (db : DB) (u : User) (role : Role) (branch : Option Nat)
    (assignedBy : Option User) (validUntil : Option Int) (now : Int) :
    Except RBACError (UserRole × DB) :=
  let deactivated := db.userRoles.map (fun ur =>
    if ur.userId == u.id && ur.role.id == role.id && ur.branch == branch &&
        ur.is_active then
      { ur with is_active := false }
    else ur)
  let newRow : UserRole :=
    { id := db.nextUserRoleId, userId := u.id, role := role, branch := branch,
      valid_from := now, valid_until := validUntil, is_active := true }
  if branch.isSome && db.userRoles.any (fun ur =>
      ur.userId == u.id && ur.role.id == role.id && ur.branch == branch) then
    Except.error RBACError.integrityError
  else
    Except.ok (newRow,
      logAction
        { db with userRoles := deactivated ++ [newRow],
                  nextUserRoleId := db.nextUserRoleId + 1 }
        "grant" u.id role assignedBy)

/-- `RBACService.assign_role` (`services.py` lines 129-174): when an
assigner is supplied it must pass the hierarchy check, else
`PermissionDenied`; then the transactional deactivate-and-insert runs. -/
def assignRole (db : DB) (u : User) (role : Role) (branch : Option Nat)
    (assignedBy : Option User) (validUntil : Option Int) (now : Int) :
    Except RBACError (UserRole × DB) :=
  match assignedBy with
  | some m =>
    if canManageRole db m role now then
      assignRoleTx db u role branch assignedBy validUntil now
    else
      Except.error (RBACError.permissionDenied
        ("User " ++ m.email ++ " cannot assign role " ++ role.name))
  | none => assignRoleTx db u role branch assignedBy validUntil now

/-- The body of `RBACService.revoke_role` after the hierarchy gate
(`services.py` lines 192-193): `user_role.deactivate()` sets
`is_active=False` on that row, then a revoke audit row is appended. -/
def revokeRoleCore (db : DB) (userRole : UserRole) (revokedBy : Option User) :
    DB :=
  let db1 := { db with userRoles := db.userRoles.map (fun ur =>
    if ur.id == userRole.id then { ur with is_active := false } else ur) }
  logAction db1 "revoke" userRole.userId userRole.role revokedBy

/-- `RBACService.revoke_role` (`services.py` lines 176-193): when a revoker
is supplied it must pass the hierarchy check against the assignment's
role, else `PermissionDenied`; then the row is soft-deactivated. -/
def revokeRole (db : DB) (userRole : UserRole) (revokedBy : Option User)
    (now : Int) : Except RBACError DB :=
  match revokedBy with
  | some m =>
    if canManageRole db m userRole.role now then
      Except.ok (revokeRoleCore db userRole revokedBy)
    else
      Except.error (RBACError.permissionDenied
        ("User " ++ m.email ++ " cannot revoke role " ++ userRole.role.name))
  | none => Except.ok (revokeRoleCore db userRole revokedBy)

/-- The static permission registry: `[p.value for p in Permissions]` from
`rbac/permissions.py`, in enum declaration order. -/
def permissionsRegistry : List String :=
  ["student.view", "student.create", "student.edit", "student.delete",
   "student.import", "student.export", "student.activate",
   "student.deactivate", "student.transfer",
   "parent.view", "parent.create", "parent.edit", "parent.link",
   "class.view", "class.create", "class.edit", "class.delete",
   "section.view", "section.create", "section.edit",
   "subject.view", "subject.create", "subject.edit", "subject.assign",
   "timetable.view", "timetable.create", "timetable.edit",
   "attendance.view", "attendance.mark", "attendance.edit",
   "attendance.report", "attendance.export",
   "staff.attendance.view", "staff.attendance.mark",
   "fee.view", "fee.create", "fee.edit", "fee.collect", "fee.refund",
   "fee.report", "expense.view", "expense.create", "expense.approve",
   "salary.view", "salary.process", "salary.approve",
   "payment.view", "payment.receipt",
   "exam.view", "exam.create", "exam.edit", "exam.publish",
   "result.view", "result.enter", "result.edit", "result.publish",
   "result.export", "grade.view", "grade.create",
   "staff.view", "staff.create", "staff.edit", "staff.terminate",
   "staff.promote", "staff.salary.view", "staff.salary.set",
   "branch.view", "branch.create", "branch.edit", "branch.manager.assign",
   "branch.report",
   "notification.view", "notification.create", "notification.send",
   "notification.broadcast",
   "report.view", "report.generate", "report.export", "report.schedule",
   "user.view", "user.create", "user.edit", "user.activate",
   "user.deactivate", "user.role.assign",
   "role.view", "role.create", "role.edit", "role.delete",
   "permission.assign", "audit.log.view",
   "dashboard.view", "dashboard.principal", "dashboard.manager",
   "dashboard.teacher", "dashboard.parent", "dashboard.student"]

/-- `RBACService.get_user_permissions` (`services.py` lines 99-123):
superuser shortcut returns the whole registry; otherwise the codes of the
`RolePermission` rows whose role is among the user's valid roles and whose
permission is active — one list entry per matching row (the list
comprehension over the joined queryset performs no de-duplication). -/
def getUserPermissions (db : DB) (u : User) (branch : Option Nat)
    (now : Int) : List String :=
  if u.is_superuser then permissionsRegistry
  else
    let roles := getValidUserRoles db u branch now
    if roles.isEmpty then []
    else
      ((db.rolePermissions.filter (fun rp =>
          roles.any (fun ur => ur.role.id == rp.roleId))).map (fun rp =>
        (db.permissions.filter (fun p => p.id == rp.permId && p.is_active)).map
          (fun p => p.code))).flatten

/-- Set `is_active = False` on every `Permission` row with the given code
(the state change P5 of the spec performs between two checks). -/
def deactivatePermissionByCode (db : DB) (code : String) : DB :=
  { db with permissions := db.permissions.map (fun p =>
      if p.code == code then { p with is_active := false } else p) }

/-- The parts of the state other than the audit log and the audit fault
flag: used to state that audit-write failure cannot leak into them. -/
def DB.core (db : DB) : List Permission × List RolePermission × List UserRole × Nat :=
  (db.permissions, db.rolePermissions, db.userRoles, db.nextUserRoleId)

/-- The state after an `assign_role` call, or the untouched state when the
call raised (the transaction rolled back). -/
def afterAssign (r : Except RBACError (UserRole × DB)) (fallback : DB) : DB :=
  match r with
  | Except.ok p => p.snd
  | Except.error _ => fallback

/-- Concrete fixtures for the instantiated theorems below. -/
def exUser : User := ⟨1, "user@example.com", true, false⟩

def exSuper : User := ⟨2, "root@example.com", true, true⟩

def exManager : User := ⟨3, "mgr@example.com", true, false⟩

def roleTeacher : Role := ⟨10, "teacher", 4, true⟩

def roleRank5 : Role := ⟨11, "manager", 5, true⟩

def roleRank3 : Role := ⟨12, "principal", 3, true⟩

def roleRank8 : Role := ⟨13, "employee", 8, true⟩

def roleOff : Role := ⟨14, "teacher", 4, false⟩

def permCreate : Permission := ⟨100, "student.create", true⟩

/-- One user (id 1) holding `roleTeacher` tenant-wide, the role granted
`student.create`. -/
def exDB : DB :=
  { permissions := [permCreate], rolePermissions := [⟨10, 100⟩],
    userRoles := [⟨0, 1, roleTeacher, none, 0, none, true⟩],
    auditLog := [], nextUserRoleId := 1, auditFails := false }

/-- The manager (id 3) holds one valid role of rank 5. -/
def mgrDB : DB :=
  { permissions := [], rolePermissions := [],
    userRoles := [⟨0, 3, roleRank5, none, 0, none, true⟩],
    auditLog := [], nextUserRoleId := 1, auditFails := false }

/-- User 1 holds `roleOff` (an inactive role) which is granted
`student.create`. -/
def offRoleDB : DB :=
  { permissions := [permCreate], rolePermissions := [⟨14, 100⟩],
    userRoles := [⟨0, 1, roleOff, none, 0, none, true⟩],
    auditLog := [], nextUserRoleId := 1, auditFails := false }

/-- User 1 holds two distinct valid roles, both granted the same
permission `student.view` (id 100). -/
def dupDB : DB :=
  { permissions := [⟨100, "student.view", true⟩],
    rolePermissions := [⟨10, 100⟩, ⟨11, 100⟩],
    userRoles := [⟨0, 1, roleTeacher, none, 0, none, true⟩,
                  ⟨1, 1, roleRank5, none, 0, none, true⟩],
    auditLog := [], nextUserRoleId := 2, auditFails := false }

def emptyDB : DB := ⟨[], [], [], [], 0, false⟩

/-- A role assignment scoped to branch 1. -/
def b1Row : UserRole := ⟨0, 1, roleTeacher, some 1, 0, none, true⟩

/-- User 1 holds `roleTeacher` at branch 1 only. -/
def b1DB : DB :=
  { permissions := [permCreate], rolePermissions := [⟨10, 100⟩],
    userRoles := [b1Row], auditLog := [], nextUserRoleId := 1,
    auditFails := false }

/-- State after assigning `roleTeacher` to user 1 at branch 7 starting
from the empty state. -/
def c4branchDB : DB :=
  afterAssign (assignRole emptyDB exUser roleTeacher (some 7) none none 0) emptyDB

/-- State after assigning `roleTeacher` to user 1 tenant-wide (branch
null) starting from the empty state. -/
def c4nullDB1 : DB :=
  afterAssign (assignRole emptyDB exUser roleTeacher none none none 0) emptyDB

/-- State after re-assigning the same role tenant-wide a second time. -/
def c4nullDB2 : DB :=
  afterAssign (assignRole c4nullDB1 exUser roleTeacher none none none 1) c4nullDB1

/-!  Helper lemmas shared by the claim theorems.  -/

/-- `is_valid` unfolded to its propositional form. -/
theorem is_valid_iff (ur : UserRole) (now : Int) :
    ur.is_valid now = true ↔
      (ur.is_active = true ∧ ur.valid_from ≤ now ∧
        (ur.valid_until = none ∨ ∃ u, ur.valid_until = some u ∧ now ≤ u)) := by
  unfold UserRole.is_valid
  cases h : ur.valid_until <;> simp [h, and_assoc]

/-- The row filter of `_get_valid_user_roles` coincides with the model's
`is_valid` predicate (plus ownership). -/
theorem valid_filter_eq (u : User) (now : Int) (ur : UserRole) :
    (ur.userId == u.id && ur.is_active && decide (ur.valid_from ≤ now) &&
      (match ur.valid_until with
       | none => true
       | some v => decide (v ≥ now)))
      = (ur.userId == u.id && ur.is_valid now) := by
  unfold UserRole.is_valid
  cases h : ur.valid_until <;> simp [h, Bool.and_assoc, ge_iff_le]

/-- Membership in the branch-free valid-role resolution. -/
theorem mem_validUserRoles_none (db : DB) (u : User) (now : Int)
    (ur : UserRole) :
    ur ∈ getValidUserRoles db u none now ↔
      ur ∈ db.userRoles ∧ ur.userId = u.id ∧ ur.is_valid now = true := by
  unfold getValidUserRoles
  rw [List.mem_filter]
  rw [valid_filter_eq]
  simp [and_assoc]

/-- Membership in the branch-scoped valid-role resolution. -/
theorem mem_validUserRoles_some (db : DB) (u : User) (b : Nat) (now : Int)
    (ur : UserRole) :
    ur ∈ getValidUserRoles db u (some b) now ↔
      ur ∈ db.userRoles ∧ ur.userId = u.id ∧ ur.is_valid now = true ∧
        (ur.branch = some b ∨ ur.branch = none) := by
  unfold getValidUserRoles
  rw [List.mem_filter, List.mem_filter, valid_filter_eq]
  simp [and_assoc, or_comm, and_left_comm]

/-- C2: `UserRole.is_valid()` is true exactly when the row is active, has
started, and has not expired; in particular a past `valid_until` makes the
assignment invalid, a future one keeps it valid, and a null one never
expires. -/
theorem userRole_is_valid_spec (ur : UserRole) (now : Int) :
    (ur.is_valid now = true ↔
      (ur.is_active = true ∧ ur.valid_from ≤ now ∧
        (ur.valid_until = none ∨ ∃ u, ur.valid_until = some u ∧ now ≤ u))) ∧
    (∀ u, ur.valid_until = some u → u < now → ur.is_valid now = false) ∧
    (∀ u, ur.valid_until = some u → now ≤ u → ur.is_active = true →
      ur.valid_from ≤ now → ur.is_valid now = true) ∧
    (ur.valid_until = none → ur.is_active = true → ur.valid_from ≤ now →
      ur.is_valid now = true) := by
  refine ⟨is_valid_iff ur now, ?_, ?_, ?_⟩
  · intro u hu hlt
    cases hval : ur.is_valid now with
    | false => rfl
    | true =>
      rcases (is_valid_iff ur now).mp hval with ⟨_, _, h⟩
      rcases h with h | ⟨v, hv, hle⟩
      · rw [hu] at h; exact absurd h (by simp)
      · rw [hu] at hv
        injection hv with hv
        rw [← hv] at hle
        exact absurd hle (not_le.mpr hlt)
  · intro u hu hle hact hfrom
    exact (is_valid_iff ur now).mpr ⟨hact, hfrom, Or.inr ⟨u, hu, hle⟩⟩
  · intro hnone hact hfrom
    exact (is_valid_iff ur now).mpr ⟨hact, hfrom, Or.inl hnone⟩

/-- Instantiation of `userRole_is_valid_spec`: an assignment expiring at
time 5 is invalid at time 7, valid at time 3, and an open-ended one is
valid at time 3. -/
theorem userRole_is_valid_spec_witness :
    (UserRole.mk 0 1 roleTeacher none 0 (some 5) true).is_valid 7 = false ∧
    (UserRole.mk 0 1 roleTeacher none 0 (some 5) true).is_valid 3 = true ∧
    (UserRole.mk 0 1 roleTeacher none 0 none true).is_valid 3 = true :=
  ⟨(userRole_is_valid_spec _ 7).2.1 5 rfl (by decide),
   (userRole_is_valid_spec _ 3).2.2.1 5 rfl (by decide) rfl (by decide),
   (userRole_is_valid_spec _ 3).2.2.2 rfl rfl (by decide)⟩

/-- C5: a valid assignment scoped to branch `b1` is excluded from the role
resolution for a different branch `b2`, while a tenant-wide (null-branch)
assignment is resolved for every branch and for the branch-free check;
membership in the resolved set is characterised exactly. -/
theorem branch_scoping_spec (db : DB) (u : User) (now : Int) (ur : UserRole)
    (b1 b2 b : Nat) :
    (ur ∈ getValidUserRoles db u (some b) now ↔
      ur ∈ db.userRoles ∧ ur.userId = u.id ∧ ur.is_valid now = true ∧
        (ur.branch = some b ∨ ur.branch = none)) ∧
    (ur ∈ getValidUserRoles db u none now ↔
      ur ∈ db.userRoles ∧ ur.userId = u.id ∧ ur.is_valid now = true) ∧
    (ur.branch = some b1 → b1 ≠ b2 →
      ur ∉ getValidUserRoles db u (some b2) now) ∧
    (ur.branch = none → ur ∈ db.userRoles → ur.userId = u.id →
      ur.is_valid now = true →
      ur ∈ getValidUserRoles db u (some b) now ∧
        ur ∈ getValidUserRoles db u none now) := by
  refine ⟨mem_validUserRoles_some db u b now ur,
    mem_validUserRoles_none db u now ur, ?_, ?_⟩
  · intro hbr hne hmem
    rcases (mem_validUserRoles_some db u b2 now ur).mp hmem with ⟨_, _, _, h | h⟩
    · rw [hbr] at h
      injection h with h
      exact hne h
    · rw [hbr] at h
      exact Option.noConfusion h
  · intro hbr hmem huid hval
    exact ⟨(mem_validUserRoles_some db u b now ur).mpr
        ⟨hmem, huid, hval, Or.inr hbr⟩,
      (mem_validUserRoles_none db u now ur).mpr ⟨hmem, huid, hval⟩⟩

/-- Instantiation of `branch_scoping_spec`: the branch-1 assignment is not
resolved for branch 2 but is resolved for branch 1. -/
theorem branch_scoping_spec_witness :
    b1Row ∉ getValidUserRoles b1DB exUser (some 2) 0 ∧
    b1Row ∈ getValidUserRoles b1DB exUser (some 1) 0 :=
  ⟨(branch_scoping_spec b1DB exUser 0 b1Row 1 2 1).2.2.1 rfl (by decide),
   ((branch_scoping_spec b1DB exUser 0 b1Row 1 2 1).1).mpr
     ⟨by decide, rfl, by decide, Or.inl rfl⟩⟩

/-- C6: an authenticated superuser passes every permission check,
whatever the database contains. -/
theorem superuser_bypass_spec (db : DB) (u : User) (code : String)
    (branch : Option Nat) (now : Int) (hauth : u.is_authenticated = true)
    (hsup : u.is_superuser = true) :
    (userHasPermission db u code branch now).fst = true := by
  unfold userHasPermission
  simp [hauth, hsup]

/-- Instantiation of `superuser_bypass_spec`: the superuser passes a check
for a code absent from every table, on an empty database. -/
theorem superuser_bypass_spec_witness :
    exSuper.is_authenticated = true ∧ exSuper.is_superuser = true ∧
    (userHasPermission emptyDB exSuper "no.such.code" none 0).fst = true :=
  ⟨rfl, rfl, superuser_bypass_spec emptyDB exSuper "no.such.code" none 0 rfl rfl⟩

/-- For an authenticated non-superuser, the check returns true exactly
when some `RolePermission` row links a resolved valid role to an active
permission carrying the requested code. -/
theorem userHasPermission_iff (db : DB) (u : User) (code : String)
    (branch : Option Nat) (now : Int) (hauth : u.is_authenticated = true)
    (hsup : u.is_superuser = false) :
    (userHasPermission db u code branch now).fst = true ↔
      ∃ rp ∈ db.rolePermissions,
        (∃ ur ∈ getValidUserRoles db u branch now, ur.role.id = rp.roleId) ∧
        ∃ p ∈ db.permissions, p.id = rp.permId ∧ p.code = code ∧
          p.is_active = true := by
  unfold userHasPermission
  by_cases hempty : (getValidUserRoles db u branch now).isEmpty
  · rw [List.isEmpty_iff] at hempty
    simp [hauth, hsup, hempty]
  · simp [hauth, hsup, hempty, List.any_eq_true, and_assoc]

/-- C1: for an authenticated non-superuser the check is true iff some
`RolePermission` row links one of the user's currently-valid
(branch-compatible) roles to an active permission with the requested
code; and deactivating that permission makes the same check false even
though the `RolePermission` link is untouched. -/
theorem user_has_permission_exists_spec (db : DB) (u : User) (code : String)
    (branch : Option Nat) (now : Int) (hauth : u.is_authenticated = true)
    (hsup : u.is_superuser = false) :
    ((userHasPermission db u code branch now).fst = true ↔
      ∃ rp ∈ db.rolePermissions,
        (∃ ur ∈ getValidUserRoles db u branch now, ur.role.id = rp.roleId) ∧
        ∃ p ∈ db.permissions, p.id = rp.permId ∧ p.code = code ∧
          p.is_active = true) ∧
    (userHasPermission (deactivatePermissionByCode db code) u code branch
      now).fst = false := by
  refine ⟨userHasPermission_iff db u code branch now hauth hsup, ?_⟩
  cases hval : (userHasPermission (deactivatePermissionByCode db code) u code
      branch now).fst with
  | false => rfl
  | true =>
    exfalso
    rcases (userHasPermission_iff (deactivatePermissionByCode db code) u code
        branch now hauth hsup).mp hval with
      ⟨rp, _, _, p, hp, _, hpcode, hpact⟩
    have hp' : p ∈ (db.permissions.map (fun q =>
        if q.code == code then { q with is_active := false } else q)) := hp
    rcases List.mem_map.mp hp' with ⟨q, _, hfq⟩
    by_cases hqc : q.code == code
    · rw [if_pos hqc] at hfq
      rw [← hfq] at hpact
      exact Bool.false_ne_true hpact
    · rw [if_neg hqc] at hfq
      rw [← hfq] at hpcode
      exact hqc (beq_iff_eq.mpr hpcode)

/-- Instantiation of `user_has_permission_exists_spec`: user 1 holds
`student.create` through `roleTeacher`, and no longer does once the
permission row is soft-deactivated. -/
theorem user_has_permission_exists_spec_witness :
    (userHasPermission exDB exUser "student.create" none 0).fst = true ∧
    (userHasPermission (deactivatePermissionByCode exDB "student.create")
      exUser "student.create" none 0).fst = false :=
  ⟨((user_has_permission_exists_spec exDB exUser "student.create" none 0 rfl
      rfl).1).mpr
      ⟨⟨10, 100⟩, by decide,
        ⟨⟨0, 1, roleTeacher, none, 0, none, true⟩, by decide, by decide⟩,
        permCreate, by decide, by decide, by decide, by decide⟩,
   (user_has_permission_exists_spec exDB exUser "student.create" none 0 rfl
      rfl).2⟩

/-- C10: the granting role's own `is_active` flag plays no part in the
check — a `RolePermission` row whose role is inactive still grants the
permission, provided the user holds a currently-valid assignment of that
role and the permission itself is active. -/
theorem role_inactive_ignored_spec (db : DB) (u : User) (code : String)
    (branch : Option Nat) (now : Int) (ur : UserRole) (rp : RolePermission)
    (p : Permission) (hauth : u.is_authenticated = true)
    (hsup : u.is_superuser = false) (hroleoff : ur.role.is_active = false)
    (hur : ur ∈ db.userRoles) (huid : ur.userId = u.id)
    (hval : ur.is_valid now = true)
    (hbr : branch = none ∨ ur.branch = branch ∨ ur.branch = none)
    (hrp : rp ∈ db.rolePermissions) (hrid : ur.role.id = rp.roleId)
    (hp : p ∈ db.permissions) (hpid : p.id = rp.permId)
    (hpcode : p.code = code) (hpact : p.is_active = true) :
    (userHasPermission db u code branch now).fst = true := by
  apply (userHasPermission_iff db u code branch now hauth hsup).mpr
  refine ⟨rp, hrp, ⟨ur, ?_, hrid⟩, p, hp, hpid, hpcode, hpact⟩
  cases hb : branch with
  | none => exact (mem_validUserRoles_none db u now ur).mpr ⟨hur, huid, hval⟩
  | some b =>
    apply (mem_validUserRoles_some db u b now ur).mpr
    refine ⟨hur, huid, hval, ?_⟩
    rcases hbr with h | h | h
    · rw [hb] at h; exact Option.noConfusion h
    · rw [hb] at h; exact Or.inl h
    · exact Or.inr h

/-- Instantiation of `role_inactive_ignored_spec`: `roleOff` is inactive
yet still conveys `student.create` to user 1. -/
theorem role_inactive_ignored_spec_witness :
    roleOff.is_active = false ∧
    (userHasPermission offRoleDB exUser "student.create" none 0).fst = true :=
  ⟨rfl,
   role_inactive_ignored_spec offRoleDB exUser "student.create" none 0
     ⟨0, 1, roleOff, none, 0, none, true⟩ ⟨14, 100⟩ permCreate rfl rfl rfl
     (by decide) rfl (by decide) (Or.inl rfl) (by decide) rfl (by decide)
     rfl rfl rfl⟩

/-- `minRankOf` is `none` exactly on the empty list. -/
theorem minRankOf_eq_none (l : List UserRole) : minRankOf l = none ↔ l = [] := by
  cases l with
  | nil => simp [minRankOf]
  | cons a t =>
    unfold minRankOf
    cases h : minRankOf t <;> simp

/-- The minimum rank is below a threshold exactly when some row's role
rank is. -/
theorem minRankOf_lt_iff (t : Nat) (l : List UserRole) :
    (∃ m, minRankOf l = some m ∧ m < t) ↔
      ∃ ur ∈ l, ur.role.level_rank < t := by
  induction l with
  | nil => simp [minRankOf]
  | cons a rest ih =>
    cases hm : minRankOf rest with
    | none =>
      rw [minRankOf_eq_none] at hm
      subst hm
      simp [minRankOf]
    | some m =>
      have ih' : m < t ↔ ∃ ur ∈ rest, ur.role.level_rank < t := by
        rw [← ih]
        simp [hm]
      unfold minRankOf
      rw [hm]
      simp [min_lt_iff, ih']

/-- C3: the hierarchy gate — superusers always pass; a non-superuser
manager passes exactly when one of their currently-valid roles (hence the
minimum-rank one) outranks the target role; a manager with no valid roles
never passes; and `assign_role` / `revoke_role` raise `PermissionDenied`
exactly when the gate fails. -/
theorem can_manage_role_spec (db : DB) (m : User) (target : Role)
    (now : Int) (u : User) (b : Option Nat) (vu : Option Int)
    (ur0 : UserRole) :
    (m.is_superuser = true → canManageRole db m target now = true) ∧
    (m.is_superuser = false →
      (canManageRole db m target now = true ↔
        ∃ ur ∈ getValidUserRoles db m none now,
          ur.role.level_rank < target.level_rank)) ∧
    (m.is_superuser = false → getValidUserRoles db m none now = [] →
      canManageRole db m target now = false) ∧
    ((∃ msg, assignRole db u target b (some m) vu now =
        Except.error (RBACError.permissionDenied msg)) ↔
      canManageRole db m target now = false) ∧
    ((∃ msg, revokeRole db ur0 (some m) now =
        Except.error (RBACError.permissionDenied msg)) ↔
      canManageRole db m ur0.role now = false) := by
  refine ⟨?_, ?_, ?_, ?_, ?_⟩
  · intro h
    unfold canManageRole
    simp [h]
  · intro h
    unfold canManageRole
    rw [← minRankOf_lt_iff]
    cases hm : minRankOf (getValidUserRoles db m none now) <;> simp [h, hm]
  · intro h hroles
    unfold canManageRole
    simp [h, hroles, minRankOf]
  · unfold assignRole
    cases hcm : canManageRole db m target now with
    | false =>
      simp only [hcm, Bool.false_eq_true, if_false]
      simp
    | true =>
      simp only [hcm, if_true]
      unfold assignRoleTx
      split <;> simp
  · unfold revokeRole
    cases hcm : canManageRole db m ur0.role now with
    | false =>
      simp only [hcm, Bool.false_eq_true, if_false]
      simp
    | true => simp [hcm]

/-- Instantiation of `can_manage_role_spec`: the manager whose only valid
role has rank 5 may act on a rank-8 role but `assign_role` of a rank-3
role raises `PermissionDenied`. -/
theorem can_manage_role_spec_witness :
    canManageRole mgrDB exManager roleRank8 0 = true ∧
    (∃ msg, assignRole mgrDB exUser roleRank3 none (some exManager) none 0 =
      Except.error (RBACError.permissionDenied msg)) :=
  ⟨((can_manage_role_spec mgrDB exManager roleRank8 0 exUser none none
      b1Row).2.1 rfl).mpr (by decide),
   ((can_manage_role_spec mgrDB exManager roleRank3 0 exUser none none
      b1Row).2.2.2.1).mpr (by decide)⟩

/-- C8: `require_permission` returns normally when the boolean check
grants, and raises `PermissionDenied` carrying the user's email and the
permission code exactly when the check denies — a denial is never
downgraded to an allow. -/
theorem require_permission_spec (db : DB) (u : User) (code : String)
    (branch : Option Nat) (now : Int) :
    ((userHasPermission db u code branch now).fst = true →
      requirePermission db u code branch now =
        Except.ok (userHasPermission db u code branch now).snd) ∧
    ((userHasPermission db u code branch now).fst = false →
      requirePermission db u code branch now =
        Except.error (RBACError.permissionDenied
          ("User " ++ u.email ++ " does not have permission: " ++ code))) ∧
    ((∃ e, requirePermission db u code branch now = Except.error e) ↔
      (userHasPermission db u code branch now).fst = false) := by
  unfold requirePermission
  cases h : (userHasPermission db u code branch now).fst <;> simp [h]

/-- Instantiation of `require_permission_spec`: the granted code returns
normally, the missing code raises with the email and the code in the
message. -/
theorem require_permission_spec_witness :
    requirePermission exDB exUser "student.create" none 0 =
      Except.ok (userHasPermission exDB exUser "student.create" none 0).snd ∧
    requirePermission exDB exUser "fee.view" none 0 =
      Except.error (RBACError.permissionDenied
        ("User " ++ exUser.email ++ " does not have permission: " ++
          "fee.view")) :=
  ⟨(require_permission_spec exDB exUser "student.create" none 0).1 (by decide),
   (require_permission_spec exDB exUser "fee.view" none 0).2.1 (by decide)⟩

/-- C9 fails as stated: with two valid roles both granting permission id
100, `get_user_permissions` returns the code once per granting
`RolePermission` row, so the result is not de-duplicated. -/
theorem get_user_permissions_dup_counterexample :
    getUserPermissions dupDB exUser none 0 =
      ["student.view", "student.view"] ∧
    ¬ (getUserPermissions dupDB exUser none 0).Nodup := by decide

/-- C9 amended: for a superuser the whole registry is returned; for a
non-superuser the returned list holds exactly the permission codes
reachable through the currently-valid roles — one entry per granting
`RolePermission` row, so a code granted via several roles may repeat. -/
theorem get_user_permissions_amended_spec (db : DB) (u : User)
    (branch : Option Nat) (now : Int) :
    (u.is_superuser = true →
      getUserPermissions db u branch now = permissionsRegistry) ∧
    (u.is_superuser = false → ∀ code : String,
      (code ∈ getUserPermissions db u branch now ↔
        ∃ rp ∈ db.rolePermissions,
          (∃ ur ∈ getValidUserRoles db u branch now, ur.role.id = rp.roleId) ∧
          ∃ p ∈ db.permissions, p.id = rp.permId ∧ p.is_active = true ∧
            p.code = code)) := by
  constructor
  · intro h
    unfold getUserPermissions
    simp [h]
  · intro h code
    unfold getUserPermissions
    by_cases hempty : (getValidUserRoles db u branch now).isEmpty
    · rw [List.isEmpty_iff] at hempty
      simp [h, hempty]
    · simp [h, hempty, List.mem_flatten, List.mem_map, List.mem_filter,
        List.any_eq_true, and_assoc]
      constructor
      · rintro ⟨l, ⟨rp, hrp, hur, rfl⟩, hcode⟩
        rcases List.mem_map.mp hcode with ⟨p, hp, rfl⟩
        rcases List.mem_filter.mp hp with ⟨hpm, hpb⟩
        have hpb' : p.id = rp.permId ∧ p.is_active = true := by simpa using hpb
        exact ⟨rp, hrp, hur, p, hpm, hpb'.1, hpb'.2, rfl⟩
      · rintro ⟨rp, hrp, hur, p, hpm, hpid, hpact, rfl⟩
        refine ⟨_, ⟨rp, hrp, hur, rfl⟩, ?_⟩
        exact List.mem_map.mpr ⟨p, List.mem_filter.mpr
          ⟨hpm, by simp [hpid, hpact]⟩, rfl⟩

/-- Instantiation of `get_user_permissions_amended_spec`: the superuser
gets the registry on an empty database, and `student.view` is reachable
for user 1 in the duplicate-grant state. -/
theorem get_user_permissions_amended_spec_witness :
    getUserPermissions emptyDB exSuper none 0 = permissionsRegistry ∧
    "student.view" ∈ getUserPermissions dupDB exUser none 0 :=
  ⟨(get_user_permissions_amended_spec emptyDB exSuper none 0).1 rfl,
   ((get_user_permissions_amended_spec dupDB exUser none 0).2 rfl
     "student.view").mpr (by decide)⟩

/-- C4 fails on the schema: `UserRole.Meta.unique_together =
['user', 'role', 'branch']` forbids the second row that
`assign_role`'s deactivate-then-insert needs, so for a non-null branch
the second call raises `IntegrityError` and the transaction rolls back
(one row remains); only for a null branch (NULLs are distinct in SQL
unique indexes) does the claimed two-rows-one-active outcome hold. -/
theorem assign_role_unique_together_bug :
    assignRole emptyDB exUser roleTeacher (some 7) none none 0 =
      Except.ok (⟨0, 1, roleTeacher, some 7, 0, none, true⟩, c4branchDB) ∧
    c4branchDB.userRoles.length = 1 ∧
    assignRole c4branchDB exUser roleTeacher (some 7) none none 1 =
      Except.error RBACError.integrityError ∧
    assignRole c4nullDB1 exUser roleTeacher none none none 1 =
      Except.ok (⟨1, 1, roleTeacher, none, 1, none, true⟩, c4nullDB2) ∧
    (c4nullDB2.userRoles.filter (fun ur =>
      ur.userId == 1 && ur.role.id == 10 && ur.branch == none)).length = 2 ∧
    (c4nullDB2.userRoles.filter (fun ur =>
      ur.userId == 1 && ur.role.id == 10 && ur.branch == none &&
        ur.is_active)).map (fun ur => ur.id) = [1] ∧
    (c4nullDB2.userRoles.filter (fun ur => ur.id == 0)).map
      (fun ur => ur.is_active) = [false] := by decide

/-- C7: making every audit-log write raise changes neither the decision of
`user_has_permission` nor the raised-vs-returned outcome and non-log state
of `assign_role` and `revoke_role`: the `try/except` swallows the failure
completely. -/
theorem audit_failure_isolation_spec (db : DB) (u : User) (code : String)
    (branch : Option Nat) (now : Int) (role : Role) (vu : Option Int)
    (assignedBy : Option User) (ur0 : UserRole) (revokedBy : Option User) :
    ((userHasPermission { db with auditFails := true } u code branch
        now).fst =
      (userHasPermission { db with auditFails := false } u code branch
        now).fst) ∧
    (Except.map (fun r => (r.fst, DB.core r.snd))
        (assignRole { db with auditFails := true } u role branch assignedBy
          vu now) =
      Except.map (fun r => (r.fst, DB.core r.snd))
        (assignRole { db with auditFails := false } u role branch assignedBy
          vu now)) ∧
    (Except.map DB.core
        (revokeRole { db with auditFails := true } ur0 revokedBy now) =
      Except.map DB.core
        (revokeRole { db with auditFails := false } ur0 revokedBy now)) := by
  refine ⟨?_, ?_, ?_⟩
  · simp only [userHasPermission, getValidUserRoles]
    split
    · rfl
    · split
      · rfl
      · split <;> rfl
  · cases assignedBy with
    | none =>
      simp only [assignRole, assignRoleTx]
      split <;> rfl
    | some mg =>
      simp only [assignRole]
      rw [show canManageRole { db with auditFails := true } mg role now =
          canManageRole { db with auditFails := false } mg role now from rfl]
      split
      · simp only [assignRoleTx]
        split <;> rfl
      · rfl
  · cases revokedBy with
    | none => rfl
    | some mg =>
      simp only [revokeRole]
      rw [show canManageRole { db with auditFails := true } mg ur0.role now =
          canManageRole { db with auditFails := false } mg ur0.role now
          from rfl]
      split <;> rfl

end SMSRBAC
